import Mathlib

/-!
Verification of the npinto/dotfiles utility scripts against their
natural-language specification.  Each Python function relevant to the
claims is shallowly embedded as a pure Lean function; stateful or
effectful behaviour (process pools, the filesystem, signals) is made
explicit as function arguments describing the outcomes of the effects.
-/

namespace Dotfiles

/-! ## video_to_slides_v1.py : perceptual-hash deduplication

A dhash value is a vector of bits; imagehash represents it as a boolean
array and defines subtraction of two hashes as the number of positions
where they differ (the Hamming distance).  Frames are identified by
their paths; we keep the frame type abstract where possible and
instantiate it with concrete types in witnesses.
-/

/-- Hamming distance between two bit vectors, as computed by
imagehash's hash subtraction: the count of positions where the
flattened boolean arrays disagree. -/
def hammingDist (a b : List Bool) : Nat :=
  List.count true (List.zipWith (fun x y => x != y) a b)

theorem hammingDist_comm (a b : List Bool) : hammingDist a b = hammingDist b a := by
  unfold hammingDist
  induction a generalizing b with
  | nil => cases b <;> rfl
  | cons x xs ih =>
    cases b with
    | nil => rfl
    | cons y ys =>
      simp only [List.zipWith, List.count_cons, ih ys]
      congr 1
      cases x <;> cases y <;> rfl

/-- Python dict insertion: if the key is present its value is replaced
in place, otherwise the pair is appended at the end (insertion order is
preserved, as in CPython 3.7+). -/
def dictInsert {F H : Type} [DecidableEq F] (m : List (F × H)) (f : F) (h : H) :
    List (F × H) :=
  if m.any (fun p => p.1 = f) then
    m.map (fun p => if p.1 = f then (f, h) else p)
  else
    m ++ [(f, h)]

/-- One iteration of the hash-collection loop of deduplicate_with_dhash
(video_to_slides_v1.py:311-316): a result whose hash is None is
skipped, the others are inserted into the frame_hashes dict. -/
def fhStep {F : Type} [DecidableEq F] (m : List (F × List Bool))
    (r : F × Option (List Bool)) : List (F × List Bool) :=
  match r.2 with
  | some h => dictInsert m r.1 h
  | none => m

/-- The hash-collection loop of deduplicate_with_dhash
(video_to_slides_v1.py:297-320): results arrive from the process pool
in completion order and are folded into the frame_hashes dict. -/
def buildFrameHashes {F : Type} [DecidableEq F]
    (results : List (F × Option (List Bool))) : List (F × List Bool) :=
  List.foldl fhStep [] results

theorem fhStep_some {F : Type} [DecidableEq F] (m : List (F × List Bool))
    (f : F) (h : List Bool) : fhStep m (f, some h) = dictInsert m f h := rfl

theorem fhStep_none {F : Type} [DecidableEq F] (m : List (F × List Bool))
    (f : F) : fhStep m (f, none) = m := rfl

/-- The greedy uniqueness loop of deduplicate_with_dhash
(video_to_slides_v1.py:322-348): acc mirrors the parallel lists
unique_frames/unique_hashes; a frame is dropped when some already-kept
hash is within the Hamming threshold, and appended otherwise. -/
def greedyDedup {F : Type} (t : Nat) (acc : List (F × List Bool)) :
    List (F × List Bool) → List (F × List Bool)
  | [] => acc
  | fh :: rest =>
      if acc.any (fun u => hammingDist fh.2 u.2 ≤ t) then
        greedyDedup t acc rest
      else
        greedyDedup t (acc ++ [fh]) rest

/-- deduplicate_with_dhash (video_to_slides_v1.py:276-358), as a
function of the per-frame hash results listed in the order in which the
process-pool futures completed: collect the successful hashes into the
frame_hashes dict, run the greedy uniqueness scan over its items, and
return the unique frame paths. -/
def deduplicate_with_dhash {F : Type} [DecidableEq F]
    (results : List (F × Option (List Bool))) (t : Nat) : List F :=
  List.map Prod.fst (greedyDedup t [] (buildFrameHashes results))

/-- compute_hash_for_frame (video_to_slides_v1.py:129-145): the outcome
of compute_dhash on the frame is either a hash or an exception; on an
exception the function logs and returns the frame paired with None
instead of propagating. -/
def compute_hash_for_frame {F E : Type} (f : F)
    (r : Except E (List Bool)) : F × Option (List Bool) :=
  match r with
  | .ok h => (f, some h)
  | .error _ => (f, none)

section DedupLemmas

variable {F : Type}

theorem greedyDedup_cons (t : Nat) (acc : List (F × List Bool))
    (fh : F × List Bool) (rest : List (F × List Bool)) :
    greedyDedup t acc (fh :: rest) =
      if acc.any (fun u => hammingDist fh.2 u.2 ≤ t) then
        greedyDedup t acc rest
      else
        greedyDedup t (acc ++ [fh]) rest := rfl

theorem mem_greedyDedup_of_mem_acc {t : Nat} {acc l : List (F × List Bool)}
    {u : F × List Bool} (hu : u ∈ acc) : u ∈ greedyDedup t acc l := by
  induction l generalizing acc with
  | nil => exact hu
  | cons fh rest ih =>
    rw [greedyDedup_cons]
    by_cases hc : acc.any (fun u => hammingDist fh.2 u.2 ≤ t) = true
    · rw [if_pos hc]; exact ih hu
    · rw [if_neg hc]; exact ih (List.mem_append_left _ hu)

theorem greedyDedup_sublist (t : Nat) (acc l : List (F × List Bool)) :
    ∃ l', l'.Sublist l ∧ greedyDedup t acc l = acc ++ l' := by
  induction l generalizing acc with
  | nil => exact ⟨[], List.Sublist.refl _, (List.append_nil acc).symm⟩
  | cons fh rest ih =>
    rw [greedyDedup_cons]
    by_cases hc : acc.any (fun u => hammingDist fh.2 u.2 ≤ t) = true
    · rw [if_pos hc]
      obtain ⟨l', hsub, heq⟩ := ih acc
      exact ⟨l', hsub.cons _, heq⟩
    · rw [if_neg hc]
      obtain ⟨l', hsub, heq⟩ := ih (acc ++ [fh])
      exact ⟨fh :: l', hsub.cons₂ _, by rw [heq, List.append_assoc]; rfl⟩

theorem greedyDedup_pairwise {t : Nat} {acc l : List (F × List Bool)}
    (hacc : acc.Pairwise (fun a b => t < hammingDist a.2 b.2)) :
    (greedyDedup t acc l).Pairwise (fun a b => t < hammingDist a.2 b.2) := by
  induction l generalizing acc with
  | nil => exact hacc
  | cons fh rest ih =>
    rw [greedyDedup_cons]
    by_cases hc : acc.any (fun u => hammingDist fh.2 u.2 ≤ t) = true
    · rw [if_pos hc]; exact ih hacc
    · rw [if_neg hc]
      refine ih ?_
      rw [List.pairwise_append]
      refine ⟨hacc, List.pairwise_singleton _ _, ?_⟩
      intro a ha b hb
      rw [List.mem_singleton] at hb
      rw [hb]
      have hnle : ¬ hammingDist fh.2 a.2 ≤ t := by
        intro hle
        exact hc (List.any_eq_true.mpr ⟨a, ha, decide_eq_true hle⟩)
      rw [hammingDist_comm] at hnle
      omega

theorem greedyDedup_covers {t : Nat} {acc l : List (F × List Bool)}
    {p : F × List Bool} (hp : p ∈ l) :
    p ∈ greedyDedup t acc l ∨
      ∃ q ∈ greedyDedup t acc l, hammingDist p.2 q.2 ≤ t := by
  induction l generalizing acc with
  | nil => cases hp
  | cons fh rest ih =>
    rw [greedyDedup_cons]
    by_cases hc : acc.any (fun u => hammingDist fh.2 u.2 ≤ t) = true
    · rw [if_pos hc]
      rcases List.mem_cons.mp hp with hp | hp
      · subst hp
        obtain ⟨u, hu, hdist⟩ := List.any_eq_true.mp hc
        exact Or.inr ⟨u, mem_greedyDedup_of_mem_acc hu, of_decide_eq_true hdist⟩
      · exact ih hp
    · rw [if_neg hc]
      rcases List.mem_cons.mp hp with hp | hp
      · subst hp
        exact Or.inl (mem_greedyDedup_of_mem_acc
          (List.mem_append_right _ (List.mem_singleton.mpr rfl)))
      · exact ih hp

theorem dictInsert_keys_subset {α : Type} [DecidableEq F]
    {m : List (F × α)} {f : F} {h : α} {x : F}
    (hx : x ∈ (dictInsert m f h).map Prod.fst) :
    x ∈ m.map Prod.fst ∨ x = f := by
  unfold dictInsert at hx
  split at hx
  · rw [List.map_map] at hx
    obtain ⟨p, hp, hpx⟩ := List.mem_map.mp hx
    by_cases hpf : p.1 = f
    · simp only [Function.comp_apply, hpf, if_pos] at hpx
      exact Or.inr hpx.symm
    · simp only [Function.comp_apply, hpf, if_neg, not_false_iff] at hpx
      exact Or.inl (hpx ▸ List.mem_map_of_mem Prod.fst hp)
  · rw [List.map_append] at hx
    rcases List.mem_append.mp hx with hx | hx
    · exact Or.inl hx
    · exact Or.inr (List.mem_singleton.mp hx)

theorem buildFrameHashes_keys_subset [DecidableEq F]
    {results : List (F × Option (List Bool))}
    {x : F} (hx : x ∈ (buildFrameHashes results).map Prod.fst) :
    x ∈ results.map Prod.fst := by
  suffices h : ∀ (rs : List (F × Option (List Bool))) (m : List (F × List Bool)),
      x ∈ (List.foldl fhStep m rs).map Prod.fst →
      x ∈ m.map Prod.fst ∨ x ∈ rs.map Prod.fst by
    rcases h results [] hx with h0 | h0
    · cases h0
    · exact h0
  intro rs
  induction rs with
  | nil => intro m hm; exact Or.inl hm
  | cons r rest ih =>
    intro m hm
    rw [List.foldl_cons] at hm
    have htail : ∀ {y : F}, y ∈ rest.map Prod.fst → y ∈ (r :: rest).map Prod.fst := by
      intro y hy
      obtain ⟨p, hp, hpx⟩ := List.mem_map.mp hy
      exact List.mem_map.mpr ⟨p, List.mem_cons_of_mem r hp, hpx⟩
    match hr : r.2 with
    | some hv =>
        rw [show r = (r.1, r.2) from rfl, hr, fhStep_some] at hm
        rcases ih (dictInsert m r.1 hv) hm with h0 | h0
        · rcases dictInsert_keys_subset h0 with h1 | h1
          · exact Or.inl h1
          · exact Or.inr (List.mem_map.mpr ⟨r, List.mem_cons_self r rest, h1.symm⟩)
        · exact Or.inr (htail h0)
    | none =>
        rw [show r = (r.1, r.2) from rfl, hr, fhStep_none] at hm
        rcases ih m hm with h0 | h0
        · exact Or.inl h0
        · exact Or.inr (htail h0)

theorem dictInsert_keys_nodup {α : Type} [DecidableEq F]
    {m : List (F × α)} {f : F} {h : α}
    (hm : (m.map Prod.fst).Nodup) : ((dictInsert m f h).map Prod.fst).Nodup := by
  unfold dictInsert
  by_cases hc : m.any (fun p => p.1 = f) = true
  · rw [if_pos hc, List.map_map]
    have heq : m.map (Prod.fst ∘ fun p => if p.1 = f then (f, h) else p)
        = m.map Prod.fst := by
      refine List.map_congr_left ?_
      intro p _
      by_cases hpf : p.1 = f
      · simp [Function.comp_apply, hpf]
      · simp [Function.comp_apply, hpf]
    rw [heq]; exact hm
  · rw [if_neg hc, List.map_append]
    rw [List.nodup_append]
    refine ⟨hm, List.nodup_singleton _, ?_⟩
    intro x hx hx'
    rw [List.map_singleton, List.mem_singleton] at hx'
    subst hx'
    obtain ⟨p, hp, hpf⟩ := List.mem_map.mp hx
    exact hc (List.any_eq_true.mpr ⟨p, hp, decide_eq_true hpf⟩)

theorem buildFrameHashes_keys_nodup [DecidableEq F]
    (results : List (F × Option (List Bool))) :
    ((buildFrameHashes results).map Prod.fst).Nodup := by
  suffices h : ∀ (rs : List (F × Option (List Bool))) (m : List (F × List Bool)),
      (m.map Prod.fst).Nodup →
      ((List.foldl fhStep m rs).map Prod.fst).Nodup from
    h results [] List.nodup_nil
  intro rs
  induction rs with
  | nil => intro m hm; exact hm
  | cons r rest ih =>
    intro m hm
    obtain ⟨f0, o⟩ := r
    rw [List.foldl_cons]
    cases o with
    | some hv => rw [fhStep_some]; exact ih _ (dictInsert_keys_nodup hm)
    | none => rw [fhStep_none]; exact ih _ hm

/-- When the frames submitted to the pool are distinct (as in the
pipeline, where each extracted frame file is hashed once), the
frame_hashes dict is exactly the successful results in arrival order. -/
theorem buildFrameHashes_eq_filterMap [DecidableEq F]
    {results : List (F × Option (List Bool))}
    (hnd : (results.map Prod.fst).Nodup) :
    buildFrameHashes results
      = results.filterMap (fun r => Option.map (fun h => (r.1, h)) r.2) := by
  suffices h : ∀ (rs : List (F × Option (List Bool))) (m : List (F × List Bool)),
      (rs.map Prod.fst).Nodup →
      (∀ f ∈ rs.map Prod.fst, f ∉ m.map Prod.fst) →
      List.foldl fhStep m rs
      = m ++ rs.filterMap (fun r => Option.map (fun h => (r.1, h)) r.2) by
    have h0 := h results [] hnd (by intro f _ hf; cases hf)
    rw [buildFrameHashes, h0, List.nil_append]
  intro rs
  induction rs with
  | nil => intro m _ _; rw [List.foldl_nil, List.filterMap_nil, List.append_nil]
  | cons r rest ih =>
    intro m hnd hdisj
    obtain ⟨f0, o⟩ := r
    rw [List.foldl_cons, List.filterMap_cons]
    rw [List.map_cons, List.nodup_cons] at hnd
    cases o with
    | some hv =>
        rw [fhStep_some]
        have hfm : ¬ m.any (fun p => p.1 = f0) = true := by
          intro hany
          obtain ⟨p, hp, hpf⟩ := List.any_eq_true.mp hany
          exact hdisj f0
            (List.mem_map.mpr ⟨(f0, some hv), List.mem_cons_self _ rest, rfl⟩)
            (List.mem_map.mpr ⟨p, hp, of_decide_eq_true hpf⟩)
        rw [dictInsert, if_neg hfm]
        rw [ih (m ++ [(f0, hv)]) hnd.2 ?_]
        · rw [List.append_assoc]; rfl
        · intro f hf hf'
          rw [List.map_append, List.mem_append] at hf'
          rcases hf' with hf' | hf'
          · exact hdisj f (List.mem_cons_of_mem _ hf) hf'
          · rw [List.map_singleton, List.mem_singleton] at hf'
            exact hnd.1 (hf' ▸ hf)
    | none =>
        rw [fhStep_none]
        exact ih m hnd.2 (fun f hf => hdisj f (List.mem_cons_of_mem _ hf))

theorem dedup_subset_keys [DecidableEq F]
    (results : List (F × Option (List Bool))) (t : Nat) :
    ∀ f ∈ deduplicate_with_dhash results t, f ∈ results.map Prod.fst := by
  intro f hf
  obtain ⟨l', hsub, heq⟩ := greedyDedup_sublist t [] (buildFrameHashes results)
  rw [List.nil_append] at heq
  rw [deduplicate_with_dhash] at hf
  obtain ⟨p, hp, hpf⟩ := List.mem_map.mp hf
  exact buildFrameHashes_keys_subset
    (hpf ▸ List.mem_map_of_mem Prod.fst ((heq ▸ hsub).mem hp))

end DedupLemmas

/-- C1: deduplicate_with_dhash returns a subset of the input frames;
the kept (frame, hash) pairs are pairwise more than the Hamming
threshold apart; the returned frame paths are distinct; and every
frame whose hash was computed successfully (i.e. that entered the
frame_hashes dict) but is not returned lies within the threshold of
some kept frame's hash. -/
theorem C1_deduplicate_with_dhash_invariant {F : Type} [DecidableEq F]
    (results : List (F × Option (List Bool))) (t : Nat) :
    (greedyDedup t [] (buildFrameHashes results)).Sublist (buildFrameHashes results) ∧
    (∀ f ∈ deduplicate_with_dhash results t, f ∈ results.map Prod.fst) ∧
    (deduplicate_with_dhash results t).Nodup ∧
    (greedyDedup t [] (buildFrameHashes results)).Pairwise
      (fun a b => t < hammingDist a.2 b.2) ∧
    (∀ p ∈ buildFrameHashes results, p.1 ∉ deduplicate_with_dhash results t →
      ∃ q ∈ greedyDedup t [] (buildFrameHashes results), hammingDist p.2 q.2 ≤ t) := by
  obtain ⟨l', hsub, heq⟩ := greedyDedup_sublist t [] (buildFrameHashes results)
  rw [List.nil_append] at heq
  have hkept : (greedyDedup t [] (buildFrameHashes results)).Sublist
      (buildFrameHashes results) := heq ▸ hsub
  refine ⟨hkept, dedup_subset_keys results t, ?_,
    greedyDedup_pairwise List.Pairwise.nil, ?_⟩
  · rw [deduplicate_with_dhash]
    exact (buildFrameHashes_keys_nodup results).sublist (hkept.map Prod.fst)
  · intro p hp hout
    rcases @greedyDedup_covers F t [] (buildFrameHashes results) p hp with hin | hcov
    · exact absurd (List.mem_map_of_mem Prod.fst hin) hout
    · exact hcov

/-- Witness for C1 at three concrete frames, one with a failed hash,
with threshold 1: frame 1 is kept, frame 2 (distance 1) is dropped but
covered, frame 3 never got a hash. -/
theorem C1_deduplicate_with_dhash_invariant_witness :
    (greedyDedup 1 [] (buildFrameHashes
      [((1 : Nat), some [false, false]), (2, some [true, false]),
        (3, none)])).Sublist
      (buildFrameHashes
        [((1 : Nat), some [false, false]), (2, some [true, false]),
          (3, none)]) ∧
    (1 : Nat) ∈ [((1 : Nat), some [false, false]), (2, some [true, false]),
        (3, none)].map Prod.fst ∧
    (deduplicate_with_dhash
      [((1 : Nat), some [false, false]), (2, some [true, false]),
        (3, none)] 1).Nodup ∧
    (greedyDedup 1 [] (buildFrameHashes
      [((1 : Nat), some [false, false]), (2, some [true, false]),
        (3, none)])).Pairwise (fun a b => 1 < hammingDist a.2 b.2) ∧
    (∃ q ∈ greedyDedup 1 [] (buildFrameHashes
      [((1 : Nat), some [false, false]), (2, some [true, false]),
        (3, none)]), hammingDist [true, false] q.2 ≤ 1) := by
  have h := C1_deduplicate_with_dhash_invariant
    [((1 : Nat), some [false, false]), (2, some [true, false]), (3, none)] 1
  exact ⟨h.1, h.2.1 1 (by decide), h.2.2.1, h.2.2.2.1,
    h.2.2.2.2 (2, [true, false]) (by decide) (by decide)⟩

/-- C2: the claim that deduplicate_with_dhash returns the same set of
frames for every completion order of the hash futures is false: with
three distinct frames whose hashes are pairwise at Hamming distances
1, 1 and 2 and threshold 1, one arrival order keeps only frame 1 while
a permutation of it keeps frames 2 and 3. -/
theorem C2_order_dependence_counterexample :
    List.Perm
      [((2 : Nat), some [true, false]), (3, some [false, true]),
        (1, some [false, false])]
      [(1, some [false, false]), (2, some [true, false]),
        (3, some [false, true])] ∧
    deduplicate_with_dhash
      [((1 : Nat), some [false, false]), (2, some [true, false]),
        (3, some [false, true])] 1 = [1] ∧
    deduplicate_with_dhash
      [((2 : Nat), some [true, false]), (3, some [false, true]),
        (1, some [false, false])] 1 = [2, 3] ∧
    (2 ∈ deduplicate_with_dhash
      [((2 : Nat), some [true, false]), (3, some [false, true]),
        (1, some [false, false])] 1 ∧
     2 ∉ deduplicate_with_dhash
      [((1 : Nat), some [false, false]), (2, some [true, false]),
        (3, some [false, true])] 1) := by decide

/-- C2 (amended): the hash-collection stage itself is
order-independent — for distinct input frames, any two completion
orders produce frame_hashes dicts that are permutations of each
other — and every completion order yields an output satisfying the
deduplication invariant; but the returned set of frames may differ
between completion orders. -/
theorem C2_order_independence_amended {F : Type} [DecidableEq F]
    (results results' : List (F × Option (List Bool))) (t : Nat)
    (hperm : results'.Perm results)
    (hnd : (results.map Prod.fst).Nodup) :
    (buildFrameHashes results').Perm (buildFrameHashes results) ∧
    (greedyDedup t [] (buildFrameHashes results')).Pairwise
      (fun a b => t < hammingDist a.2 b.2) ∧
    (∀ p ∈ buildFrameHashes results', p.1 ∉ deduplicate_with_dhash results' t →
      ∃ q ∈ greedyDedup t [] (buildFrameHashes results'),
        hammingDist p.2 q.2 ≤ t) := by
  have hnd' : (results'.map Prod.fst).Nodup :=
    ((hperm.map Prod.fst).nodup_iff).mpr hnd
  refine ⟨?_, greedyDedup_pairwise List.Pairwise.nil, ?_⟩
  · rw [buildFrameHashes_eq_filterMap hnd, buildFrameHashes_eq_filterMap hnd']
    exact hperm.filterMap _
  · intro p hp hout
    rcases @greedyDedup_covers F t [] (buildFrameHashes results') p hp with hin | hcov
    · exact absurd (List.mem_map_of_mem Prod.fst hin) hout
    · exact hcov

/-- Witness for C2 (amended) at a concrete permutation of three
distinct hashed frames. -/
theorem C2_order_independence_amended_witness :
    (buildFrameHashes
      [((2 : Nat), some [true, false]), (3, some [false, true]),
        (1, some [false, false])]).Perm
      (buildFrameHashes
        [(1, some [false, false]), (2, some [true, false]),
          (3, some [false, true])]) ∧
    (greedyDedup 1 [] (buildFrameHashes
      [((2 : Nat), some [true, false]), (3, some [false, true]),
        (1, some [false, false])])).Pairwise
      (fun a b => 1 < hammingDist a.2 b.2) ∧
    (∀ p ∈ buildFrameHashes
        [((2 : Nat), some [true, false]), (3, some [false, true]),
          (1, some [false, false])],
      p.1 ∉ deduplicate_with_dhash
        [((2 : Nat), some [true, false]), (3, some [false, true]),
          (1, some [false, false])] 1 →
      ∃ q ∈ greedyDedup 1 [] (buildFrameHashes
        [((2 : Nat), some [true, false]), (3, some [false, true]),
          (1, some [false, false])]),
        hammingDist p.2 q.2 ≤ 1) :=
  C2_order_independence_amended
    [(1, some [false, false]), (2, some [true, false]), (3, some [false, true])]
    [(2, some [true, false]), (3, some [false, true]), (1, some [false, false])]
    1 (by decide) (by decide)

/-- C6: a frame whose dhash computation raises is returned by
compute_hash_for_frame as (frame, None) instead of propagating the
exception; deduplicate_with_dhash then behaves exactly as if that
result were absent — the frame enters no similarity comparison — and
in particular a frame appearing only with a failed hash is never in
the output. -/
theorem C6_hash_error_skip_and_continue {F E : Type} [DecidableEq F]
    (f : F) (e : E) (pre post : List (F × Option (List Bool))) (t : Nat) :
    compute_hash_for_frame f (Except.error e) = (f, none) ∧
    deduplicate_with_dhash (pre ++ (f, none) :: post) t
      = deduplicate_with_dhash (pre ++ post) t ∧
    (f ∉ (pre ++ post).map Prod.fst →
      f ∉ deduplicate_with_dhash (pre ++ (f, none) :: post) t) := by
  have hbuild : buildFrameHashes (pre ++ (f, none) :: post)
      = buildFrameHashes (pre ++ post) := by
    rw [buildFrameHashes, buildFrameHashes, List.foldl_append, List.foldl_append,
      List.foldl_cons, fhStep_none]
  have heq : deduplicate_with_dhash (pre ++ (f, none) :: post) t
      = deduplicate_with_dhash (pre ++ post) t := by
    rw [deduplicate_with_dhash, deduplicate_with_dhash, hbuild]
  refine ⟨rfl, heq, ?_⟩
  intro hnotin hmem
  rw [heq] at hmem
  exact hnotin (dedup_subset_keys (pre ++ post) t f hmem)

/-- Witness for C6: a failed hash for frame 7 between two successful
results is dropped without affecting the rest. -/
theorem C6_hash_error_skip_and_continue_witness :
    compute_hash_for_frame 7 (Except.error (0 : Nat)) = (7, none) ∧
    deduplicate_with_dhash
      ([((1 : Nat), some [false, false])] ++ (7, none) :: [(2, some [true, true])]) 0
      = deduplicate_with_dhash
        ([((1 : Nat), some [false, false])] ++ [(2, some [true, true])]) 0 ∧
    (7 : Nat) ∉ deduplicate_with_dhash
      ([((1 : Nat), some [false, false])] ++ (7, none) :: [(2, some [true, true])]) 0 := by
  have h := C6_hash_error_skip_and_continue (7 : Nat) (0 : Nat)
    [((1 : Nat), some [false, false])] [(2, some [true, true])] 0
  exact ⟨h.1, h.2.1, h.2.2 (by decide)⟩

/-! ## video_to_slides_v1.py : slide-classification filter -/

/-- The observable result of the OpenCV analysis of one frame inside
is_slide_frame (video_to_slides_v1.py:221-273): either some step of
the analysis raised an exception, or cv2.imread returned None, or the
analysis produced a text-density score, a grayscale standard deviation
and a Laplacian edge-sharpness variance. -/
inductive FrameAnalysis where
  | err : FrameAnalysis
  | unreadable : FrameAnalysis
  | ok (textScore stdDev edgeSharpness : ℚ) : FrameAnalysis

/-- is_slide_frame (video_to_slides_v1.py:221-273): True on an
exception (the frame is kept by default), False when the image cannot
be read, and otherwise the three-way decision logic over the text
score, standard deviation and edge sharpness. -/
def is_slide_frame (a : FrameAnalysis)
    (min_text_score edge_threshold : ℚ) : Bool :=
  match a with
  | .err => true
  | .unreadable => false
  | .ok textScore stdDev edgeSharpness =>
      decide (min_text_score < textScore)
      || (decide (stdDev < 80) && decide (edge_threshold < edgeSharpness))
      || (decide ((1 : ℚ)/5 < textScore) && decide (stdDev < 100))

/-- check_frame_for_slide (video_to_slides_v1.py:148-161): pairs the
frame path with the is_slide_frame verdict. -/
def check_frame_for_slide {F : Type} (f : F) (a : FrameAnalysis)
    (min_text_score edge_threshold : ℚ) : F × Bool :=
  (f, is_slide_frame a min_text_score edge_threshold)

/-- filter_slide_frames (video_to_slides_v1.py:361-413), as a function
of the per-frame slide-check results listed in future completion
order: frames whose check returned True are collected and the
collected list is sorted by path. -/
def filter_slide_frames {F : Type} [LinearOrder F]
    (results : List (F × Bool)) : List F :=
  List.insertionSort (· ≤ ·) (List.map Prod.fst (results.filter (fun r => r.2)))

/-- C9: filter_slide_frames returns a subset of the input frames,
sorted ascending; the output is identical for any two completion
orders of the parallel checks; and a frame whose analysis raised an
exception is classified as a slide and kept. -/
theorem C9_filter_slide_frames_sorted_order_independent
    {F : Type} [LinearOrder F]
    (results results' : List (F × Bool)) (hperm : results'.Perm results)
    (min_text_score edge_threshold : ℚ) :
    (∀ f ∈ filter_slide_frames results, f ∈ results.map Prod.fst) ∧
    (filter_slide_frames results).Sorted (· ≤ ·) ∧
    filter_slide_frames results' = filter_slide_frames results ∧
    is_slide_frame FrameAnalysis.err min_text_score edge_threshold = true ∧
    (∀ f : F, (f, true) ∈ results → f ∈ filter_slide_frames results) := by
  refine ⟨?_, List.sorted_insertionSort _ _, ?_, rfl, ?_⟩
  · intro f hf
    have hmem := (@List.perm_insertionSort F (· ≤ ·) _ _).mem_iff.mp hf
    obtain ⟨p, hp, hpf⟩ := List.mem_map.mp hmem
    exact hpf ▸ List.mem_map_of_mem Prod.fst (List.mem_of_mem_filter hp)
  · refine List.eq_of_perm_of_sorted ?_
      (List.sorted_insertionSort _ _) (List.sorted_insertionSort _ _)
    exact ((List.perm_insertionSort _ _).trans
      ((hperm.filter _).map Prod.fst)).trans (List.perm_insertionSort _ _).symm
  · intro f hf
    refine (@List.perm_insertionSort F (· ≤ ·) _ _).mem_iff.mpr ?_
    exact List.mem_map_of_mem Prod.fst (List.mem_filter_of_mem hf rfl)

/-- Witness for C9 at a concrete completion-order permutation of three
checked frames, with the default thresholds 0.3 and 50. -/
theorem C9_filter_slide_frames_witness :
    (∀ f ∈ filter_slide_frames [((2 : Nat), true), (1, false), (3, true)],
      f ∈ [((2 : Nat), true), (1, false), (3, true)].map Prod.fst) ∧
    (filter_slide_frames [((2 : Nat), true), (1, false), (3, true)]).Sorted (· ≤ ·) ∧
    filter_slide_frames [((3 : Nat), true), (2, true), (1, false)]
      = filter_slide_frames [((2 : Nat), true), (1, false), (3, true)] ∧
    is_slide_frame FrameAnalysis.err (3/10) 50 = true ∧
    (∀ f : Nat, (f, true) ∈ [((2 : Nat), true), (1, false), (3, true)] →
      f ∈ filter_slide_frames [((2 : Nat), true), (1, false), (3, true)]) :=
  C9_filter_slide_frames_sorted_order_independent
    [((2 : Nat), true), (1, false), (3, true)]
    [((3 : Nat), true), (2, true), (1, false)]
    (by decide) (3/10) 50

/-! ## Exponential-backoff retry helpers

The wrapped function is modelled by the sequence of its call outcomes:
the i-th call either raises an exception or returns a value (possibly
None in the Fireflies version).  Delays are modelled as rationals; the
code's delay arithmetic is doubling and min, both exact.  A run is
summarised as (number of calls made, list of sleep durations in order,
final result).
-/

/-- Final result of a retry loop: a returned value, the implicit None
returned when the loop exhausts without an exception on the last
attempt, or a re-raised exception. -/
inductive RetryResult (E V : Type) where
  | ok (v : V)
  | retNone
  | raised (e : E)
deriving DecidableEq

/-- The delay sequence maintained by FirefliesTranscriber._retry_with_backoff
(fireflies_cli_v1.py:200-215): starts at the given delay and after each
sleep is updated to min(delay * 2, 60). -/
def ffCapSched (d : ℚ) : Nat → List ℚ
  | 0 => []
  | n + 1 => d :: ffCapSched (min (d * 2) 60) n

/-- The loop body of FirefliesTranscriber._retry_with_backoff
(fireflies_cli_v1.py:200-215), with attempt the current loop index and
remaining the number of loop iterations left: a non-None result is
returned at once; a None result retries immediately without sleeping;
an exception on the last attempt is re-raised, and otherwise the loop
sleeps the current delay and doubles it (capped at 60). -/
def ffRetryGo {E V : Type} (outcomes : Nat → Except E (Option V))
    (attempt : Nat) (remaining : Nat) (delay : ℚ) :
    Nat × List ℚ × RetryResult E V :=
  match remaining with
  | 0 => (0, [], .retNone)
  | r + 1 =>
    match outcomes attempt with
    | .ok (some v) => (1, [], .ok v)
    | .ok none =>
        let rec' := ffRetryGo outcomes (attempt + 1) r delay
        (rec'.1 + 1, rec'.2.1, rec'.2.2)
    | .error e =>
        if r = 0 then (1, [], .raised e)
        else
          let rec' := ffRetryGo outcomes (attempt + 1) r (min (delay * 2) 60)
          (rec'.1 + 1, delay :: rec'.2.1, rec'.2.2)

/-- FirefliesTranscriber._retry_with_backoff (fireflies_cli_v1.py:200-215). -/
def fireflies_retry_with_backoff {E V : Type}
    (outcomes : Nat → Except E (Option V)) (max_attempts : Nat)
    (initial_delay : ℚ) : Nat × List ℚ × RetryResult E V :=
  ffRetryGo outcomes 0 max_attempts initial_delay

/-- The loop body of RobustShootProofDownloader._retry_with_backoff
(shootproof_downloader.py:710-723): any non-raising call returns; an
exception on the last attempt is re-raised; otherwise the loop sleeps
retry_delay * 2 ** attempt. -/
def spRetryGo {E V : Type} (outcomes : Nat → Except E V) (retry_delay : ℚ)
    (attempt : Nat) (remaining : Nat) : Nat × List ℚ × RetryResult E V :=
  match remaining with
  | 0 => (0, [], .retNone)
  | r + 1 =>
    match outcomes attempt with
    | .ok v => (1, [], .ok v)
    | .error e =>
        if r = 0 then (1, [], .raised e)
        else
          let rec' := spRetryGo outcomes retry_delay (attempt + 1) r
          (rec'.1 + 1, retry_delay * 2 ^ attempt :: rec'.2.1, rec'.2.2)

/-- RobustShootProofDownloader._retry_with_backoff
(shootproof_downloader.py:710-723). -/
def shootproof_retry_with_backoff {E V : Type}
    (outcomes : Nat → Except E V) (retry_delay : ℚ) (max_retries : Nat) :
    Nat × List ℚ × RetryResult E V :=
  spRetryGo outcomes retry_delay 0 max_retries

section RetryLemmas

variable {E V : Type}

theorem ffRetryGo_ok_some {outcomes : Nat → Except E (Option V)}
    {attempt : Nat} {v : V} (h : outcomes attempt = Except.ok (some v))
    (r : Nat) (delay : ℚ) :
    ffRetryGo outcomes attempt (r + 1) delay = (1, [], .ok v) := by
  conv_lhs => unfold ffRetryGo
  rw [h]

theorem ffRetryGo_ok_none {outcomes : Nat → Except E (Option V)}
    {attempt : Nat} (h : outcomes attempt = Except.ok none)
    (r : Nat) (delay : ℚ) :
    ffRetryGo outcomes attempt (r + 1) delay =
      ((ffRetryGo outcomes (attempt + 1) r delay).1 + 1,
       (ffRetryGo outcomes (attempt + 1) r delay).2.1,
       (ffRetryGo outcomes (attempt + 1) r delay).2.2) := by
  conv_lhs => unfold ffRetryGo
  rw [h]

theorem ffRetryGo_error {outcomes : Nat → Except E (Option V)}
    {attempt : Nat} {e : E} (h : outcomes attempt = Except.error e)
    (r : Nat) (delay : ℚ) :
    ffRetryGo outcomes attempt (r + 1) delay =
      if r = 0 then (1, [], .raised e)
      else
        ((ffRetryGo outcomes (attempt + 1) r (min (delay * 2) 60)).1 + 1,
         delay :: (ffRetryGo outcomes (attempt + 1) r (min (delay * 2) 60)).2.1,
         (ffRetryGo outcomes (attempt + 1) r (min (delay * 2) 60)).2.2) := by
  conv_lhs => unfold ffRetryGo
  rw [h]

theorem spRetryGo_ok {outcomes : Nat → Except E V} {attempt : Nat} {v : V}
    (h : outcomes attempt = Except.ok v) (retry_delay : ℚ) (r : Nat) :
    spRetryGo outcomes retry_delay attempt (r + 1) = (1, [], .ok v) := by
  conv_lhs => unfold spRetryGo
  rw [h]

theorem spRetryGo_error {outcomes : Nat → Except E V} {attempt : Nat} {e : E}
    (h : outcomes attempt = Except.error e) (retry_delay : ℚ) (r : Nat) :
    spRetryGo outcomes retry_delay attempt (r + 1) =
      if r = 0 then (1, [], .raised e)
      else
        ((spRetryGo outcomes retry_delay (attempt + 1) r).1 + 1,
         retry_delay * 2 ^ attempt ::
           (spRetryGo outcomes retry_delay (attempt + 1) r).2.1,
         (spRetryGo outcomes retry_delay (attempt + 1) r).2.2) := by
  conv_lhs => unfold spRetryGo
  rw [h]

theorem ffRetryGo_calls_le (outcomes : Nat → Except E (Option V))
    (attempt remaining : Nat) (delay : ℚ) :
    (ffRetryGo outcomes attempt remaining delay).1 ≤ remaining := by
  induction remaining generalizing attempt delay with
  | zero => exact Nat.le_refl 0
  | succ r ih =>
    cases houtcome : outcomes attempt with
    | ok o =>
        cases o with
        | some v => rw [ffRetryGo_ok_some houtcome]; omega
        | none =>
            rw [ffRetryGo_ok_none houtcome]
            exact Nat.succ_le_succ (ih (attempt + 1) delay)
    | error e =>
        rw [ffRetryGo_error houtcome]
        by_cases hr : r = 0
        · rw [if_pos hr]; omega
        · rw [if_neg hr]
          exact Nat.succ_le_succ (ih (attempt + 1) (min (delay * 2) 60))

theorem ffRetryGo_sleeps_sched (outcomes : Nat → Except E (Option V))
    (attempt remaining : Nat) (delay : ℚ) :
    (ffRetryGo outcomes attempt remaining delay).2.1
      = ffCapSched delay (ffRetryGo outcomes attempt remaining delay).2.1.length := by
  induction remaining generalizing attempt delay with
  | zero => rfl
  | succ r ih =>
    cases houtcome : outcomes attempt with
    | ok o =>
        cases o with
        | some v => rw [ffRetryGo_ok_some houtcome]; rfl
        | none =>
            rw [ffRetryGo_ok_none houtcome]
            exact ih (attempt + 1) delay
    | error e =>
        rw [ffRetryGo_error houtcome]
        by_cases hr : r = 0
        · rw [if_pos hr]; rfl
        · rw [if_neg hr]
          have h0 := ih (attempt + 1) (min (delay * 2) 60)
          simp only [List.length_cons, ffCapSched]
          rw [← h0]

theorem ffRetryGo_all_error (es : Nat → E)
    (outcomes : Nat → Except E (Option V))
    (hall : ∀ i, outcomes i = Except.error (es i))
    (attempt r : Nat) (delay : ℚ) :
    ffRetryGo outcomes attempt (r + 1) delay
      = (r + 1, ffCapSched delay r, .raised (es (attempt + r))) := by
  induction r generalizing attempt delay with
  | zero =>
    rw [ffRetryGo_error (hall attempt), if_pos rfl]
    rfl
  | succ k ih =>
    rw [ffRetryGo_error (hall attempt), if_neg (Nat.succ_ne_zero k),
      ih (attempt + 1) (min (delay * 2) 60)]
    have hidx : attempt + 1 + k = attempt + (k + 1) := by omega
    rw [hidx]
    rfl

theorem spRetryGo_calls_le (outcomes : Nat → Except E V) (retry_delay : ℚ)
    (attempt remaining : Nat) :
    (spRetryGo outcomes retry_delay attempt remaining).1 ≤ remaining := by
  induction remaining generalizing attempt with
  | zero => exact Nat.le_refl 0
  | succ r ih =>
    cases houtcome : outcomes attempt with
    | ok v => rw [spRetryGo_ok houtcome]; omega
    | error e =>
        rw [spRetryGo_error houtcome]
        by_cases hr : r = 0
        · rw [if_pos hr]; omega
        · rw [if_neg hr]
          exact Nat.succ_le_succ (ih (attempt + 1))

theorem spRetryGo_sleeps_sched (outcomes : Nat → Except E V) (retry_delay : ℚ)
    (attempt remaining : Nat) :
    (spRetryGo outcomes retry_delay attempt remaining).2.1
      = List.map (fun k => retry_delay * 2 ^ k)
          (List.range'
            attempt (spRetryGo outcomes retry_delay attempt remaining).2.1.length) := by
  induction remaining generalizing attempt with
  | zero => rfl
  | succ r ih =>
    cases houtcome : outcomes attempt with
    | ok v => rw [spRetryGo_ok houtcome]; rfl
    | error e =>
        rw [spRetryGo_error houtcome]
        by_cases hr : r = 0
        · rw [if_pos hr]; rfl
        · rw [if_neg hr]
          have h0 := ih (attempt + 1)
          simp only [List.length_cons, List.range']
          rw [List.map_cons, ← h0]

theorem spRetryGo_all_error (es : Nat → E) (outcomes : Nat → Except E V)
    (hall : ∀ i, outcomes i = Except.error (es i))
    (retry_delay : ℚ) (attempt r : Nat) :
    spRetryGo outcomes retry_delay attempt (r + 1)
      = (r + 1,
         List.map (fun k => retry_delay * 2 ^ k) (List.range' attempt r),
         .raised (es (attempt + r))) := by
  induction r generalizing attempt with
  | zero =>
    rw [spRetryGo_error (hall attempt), if_pos rfl]
    rfl
  | succ k ih =>
    rw [spRetryGo_error (hall attempt), if_neg (Nat.succ_ne_zero k),
      ih (attempt + 1)]
    have hidx : attempt + 1 + k = attempt + (k + 1) := by omega
    rw [hidx, List.range']
    rfl

end RetryLemmas

/-- C5: both _retry_with_backoff helpers call the wrapped function at
most max_attempts (resp. max_retries) times; the sleeps performed
follow the exponential schedule — in the Fireflies version starting at
initial_delay and doubling with a 60-second cap, in the ShootProof
version retry_delay * 2 ^ attempt — and when every attempt raises, the
exception of the final attempt is re-raised to the caller. -/
theorem C5_retry_with_backoff {E V : Type} (es : Nat → E)
    (ffOutcomes : Nat → Except E (Option V)) (spOutcomes : Nat → Except E V)
    (m : Nat) (initial_delay retry_delay : ℚ)
    (hffFail : ∀ i, ffOutcomes i = Except.error (es i))
    (hspFail : ∀ i, spOutcomes i = Except.error (es i)) :
    (∀ (o : Nat → Except E (Option V)) (n : Nat) (d : ℚ),
      (fireflies_retry_with_backoff o n d).1 ≤ n) ∧
    (∀ (o : Nat → Except E V) (d : ℚ) (n : Nat),
      (shootproof_retry_with_backoff o d n).1 ≤ n) ∧
    (∀ (o : Nat → Except E (Option V)) (n : Nat) (d : ℚ),
      (fireflies_retry_with_backoff o n d).2.1
        = ffCapSched d (fireflies_retry_with_backoff o n d).2.1.length) ∧
    (∀ (o : Nat → Except E V) (d : ℚ) (n : Nat),
      (shootproof_retry_with_backoff o d n).2.1
        = List.map (fun k => d * 2 ^ k)
            (List.range (shootproof_retry_with_backoff o d n).2.1.length)) ∧
    fireflies_retry_with_backoff ffOutcomes (m + 1) initial_delay
      = (m + 1, ffCapSched initial_delay m, .raised (es m)) ∧
    shootproof_retry_with_backoff spOutcomes retry_delay (m + 1)
      = (m + 1, List.map (fun k => retry_delay * 2 ^ k) (List.range m),
         .raised (es m)) := by
  refine ⟨?_, ?_, ?_, ?_, ?_, ?_⟩
  · intro o n d; exact ffRetryGo_calls_le o 0 n d
  · intro o d n; exact spRetryGo_calls_le o d 0 n
  · intro o n d; exact ffRetryGo_sleeps_sched o 0 n d
  · intro o d n
    have h0 := spRetryGo_sleeps_sched o d 0 n
    rw [List.range_eq_range']
    exact h0
  · have h0 := ffRetryGo_all_error es ffOutcomes hffFail 0 m initial_delay
    rw [Nat.zero_add] at h0
    exact h0
  · have h0 := spRetryGo_all_error es spOutcomes hspFail retry_delay 0 m
    rw [Nat.zero_add, ← List.range_eq_range'] at h0
    exact h0

/-- Witness for C5 with three attempts all raising, initial delay 1
and ShootProof retry_delay 1/2. -/
theorem C5_retry_with_backoff_witness :
    (∀ (o : Nat → Except Nat (Option Nat)) (n : Nat) (d : ℚ),
      (fireflies_retry_with_backoff o n d).1 ≤ n) ∧
    (∀ (o : Nat → Except Nat Nat) (d : ℚ) (n : Nat),
      (shootproof_retry_with_backoff o d n).1 ≤ n) ∧
    (∀ (o : Nat → Except Nat (Option Nat)) (n : Nat) (d : ℚ),
      (fireflies_retry_with_backoff o n d).2.1
        = ffCapSched d (fireflies_retry_with_backoff o n d).2.1.length) ∧
    (∀ (o : Nat → Except Nat Nat) (d : ℚ) (n : Nat),
      (shootproof_retry_with_backoff o d n).2.1
        = List.map (fun k => d * 2 ^ k)
            (List.range (shootproof_retry_with_backoff o d n).2.1.length)) ∧
    fireflies_retry_with_backoff
        (fun i => (Except.error i : Except Nat (Option Nat))) (2 + 1) 1
      = (2 + 1, ffCapSched 1 2, .raised 2) ∧
    shootproof_retry_with_backoff
        (fun i => (Except.error i : Except Nat Nat)) (1/2) (2 + 1)
      = (2 + 1, List.map (fun k => (1/2 : ℚ) * 2 ^ k) (List.range 2),
         .raised 2) :=
  C5_retry_with_backoff (fun i => i)
    (fun i => (Except.error i : Except Nat (Option Nat)))
    (fun i => (Except.error i : Except Nat Nat))
    2 1 (1/2) (fun _ => rfl) (fun _ => rfl)

/-! ## fireflies_cli_v1.py : transcript output paths

Paths are modelled as a directory (abstract type) paired with a file
name; Path division by a relative file name appends the name to the
directory. -/

/-- The transcript JSON path built by save_transcript_files
(fireflies_cli_v1.py:616-641): output_base_dir is --output-dir when
given and the audio file's parent otherwise; base_name is
audio_path.name, the full file name including its extension; the file
written is output_base_dir / (base_name + ".transcript.json"). -/
def save_transcript_json_path {D : Type} (output_dir : Option D)
    (audio_parent : D) (audio_name : String) : D × String :=
  (match output_dir with
   | some d => d
   | none => audio_parent,
   audio_name ++ ".transcript.json")

/-- The transcript path consulted by the already-processed skip check
in process_audio_file (fireflies_cli_v1.py:1091-1095): output_base_dir
is self.output_dir when set, else audio_path.parent, and the file
checked is output_base_dir / (audio_path.name + ".transcript.json"). -/
def skip_check_transcript_path {D : Type} (output_dir : Option D)
    (audio_parent : D) (audio_name : String) : D × String :=
  (match output_dir with
   | some d => d
   | none => audio_parent,
   audio_name ++ ".transcript.json")

/-- C7: for every audio file the Fireflies CLI writes the transcript
JSON to name + ".transcript.json" (the full original name, extension
included) in --output-dir when given, else in the audio file's own
directory, and the skip check consults exactly the same path. -/
theorem C7_fireflies_transcript_path {D : Type} (output_dir : Option D)
    (audio_parent : D) (audio_name : String) :
    save_transcript_json_path output_dir audio_parent audio_name
      = skip_check_transcript_path output_dir audio_parent audio_name ∧
    (save_transcript_json_path output_dir audio_parent audio_name).2
      = audio_name ++ ".transcript.json" ∧
    (∀ d : D, save_transcript_json_path (some d) audio_parent audio_name
      = (d, audio_name ++ ".transcript.json")) ∧
    save_transcript_json_path none audio_parent audio_name
      = (audio_parent, audio_name ++ ".transcript.json") ∧
    save_transcript_json_path (some "outdir") "audiodir" "talk.opus"
      = ("outdir", "talk.opus.transcript.json") :=
  ⟨rfl, rfl, fun _ => rfl, rfl, rfl⟩

/-! ## Signal handlers (C4)

Each installed handler is summarised by what it does when the signal
is delivered: whether it runs cleanup, and whether it terminates the
process via sys.exit or merely records a state change and returns. -/

/-- What a signal handler does when invoked: terminate the process via
sys.exit with the given code, or set a flag and return, letting the
interrupted run continue until some checkpoint polls the flag. -/
inductive SignalAction where
  | exitProcess (code : Nat)
  | recordShutdownRequest
deriving DecidableEq

/-- A handler summary: whether cleanup is performed inside the handler
before its final action, whether SIGTERM is handled in addition to
SIGINT, and the final action. -/
structure HandlerSpec where
  cleanupInHandler : Bool
  handlesSigterm : Bool
  action : SignalAction
deriving DecidableEq

/-- FirefliesTranscriber._handle_shutdown (fireflies_cli_v1.py:147-155):
installed for SIGINT and SIGTERM; logs, runs _cleanup, then
sys.exit(0). -/
def fireflies_handle_shutdown : HandlerSpec :=
  ⟨true, true, .exitProcess 0⟩

/-- VideoToSlidesConverter's signal_handler
(video_to_slides_v1.py:467-477): installed for SIGINT and SIGTERM;
logs, runs _cleanup, then sys.exit(1). -/
def video_to_slides_signal_handler : HandlerSpec :=
  ⟨true, true, .exitProcess 1⟩

/-- WebsiteToPDFConverter's signal_handler (website_to_pdf.py:579-585):
installed for SIGINT only; logs then sys.exit(0). -/
def website_to_pdf_signal_handler : HandlerSpec :=
  ⟨false, false, .exitProcess 0⟩

/-- RobustShootProofDownloader's signal_handler
(shootproof_downloader.py:582-593): installed for SIGINT and SIGTERM;
logs a warning and sets self._shutdown_requested = True, then returns;
the run continues until a loop checkpoint polls the flag. -/
def shootproof_signal_handler : HandlerSpec :=
  ⟨false, true, .recordShutdownRequest⟩

/-- Whether a handler terminates the process by calling sys.exit. -/
def terminatesViaSysExit (h : HandlerSpec) : Bool :=
  match h.action with
  | .exitProcess _ => true
  | .recordShutdownRequest => false

/-- C4: the claim that every installed SIGINT/SIGTERM handler in the
repository terminates the process via sys.exit is false: the
ShootProof downloader installs handlers for both signals, and its
handler merely records a shutdown request and returns while the run
continues. -/
theorem C4_shootproof_handler_counterexample :
    shootproof_signal_handler.handlesSigterm = true ∧
    shootproof_signal_handler.action = SignalAction.recordShutdownRequest ∧
    terminatesViaSysExit shootproof_signal_handler = false :=
  ⟨rfl, rfl, rfl⟩

/-- C4 (amended): the Fireflies, video-to-slides and website-to-PDF
handlers terminate via sys.exit (after in-handler cleanup in the first
two), but the ShootProof downloader's SIGINT/SIGTERM handler records
a shutdown request and returns, deferring termination to checkpoint
polls of the flag. -/
theorem C4_signal_handlers_amended :
    terminatesViaSysExit fireflies_handle_shutdown = true ∧
    fireflies_handle_shutdown = ⟨true, true, .exitProcess 0⟩ ∧
    terminatesViaSysExit video_to_slides_signal_handler = true ∧
    video_to_slides_signal_handler = ⟨true, true, .exitProcess 1⟩ ∧
    terminatesViaSysExit website_to_pdf_signal_handler = true ∧
    website_to_pdf_signal_handler.handlesSigterm = false ∧
    terminatesViaSysExit shootproof_signal_handler = false ∧
    shootproof_signal_handler.action = SignalAction.recordShutdownRequest :=
  ⟨rfl, rfl, rfl, rfl, rfl, rfl, rfl, rfl⟩

/-! ## PDF pipelines and the OCR-failure fallback (C3) -/

/-- The content found at the OCR output path of
papermark_download.py's process_slides_to_pdf: the OCR'd PDF produced
with the requested languages, the OCR'd PDF produced by the
English-only retry, or a byte copy of the un-OCR'd slides PDF. -/
inductive PMContent where
  | ocrLangs
  | ocrEngOnly
  | copyOfPlain
deriving DecidableEq

/-- Outcome summary of process_slides_to_pdf. -/
structure PMResult where
  success : Bool
  ocrOut : Option PMContent
  compressRan : Bool
  compressInput : Option PMContent
deriving DecidableEq

/-- process_slides_to_pdf (papermark_download.py:461-535) as a function
of the step outcomes: convert_ok is whether screenshots-to-PDF
succeeded, multiLang whether more than one OCR language was requested
with eng among them, ocrFull_ok / ocrEng_ok whether add_ocr_to_pdf
succeeds with the full language list / with English only.  On OCR
failure the un-OCR'd PDF is copied to the OCR output path and
ocr_success is forced to True so that compression still runs. -/
def process_slides_to_pdf (convert_ok multiLang ocrFull_ok ocrEng_ok : Bool) :
    PMResult :=
  if ¬ convert_ok then ⟨false, none, false, none⟩
  else
    let ocrOut : PMContent :=
      if ocrFull_ok then .ocrLangs
      else if multiLang then (if ocrEng_ok then .ocrEngOnly else .copyOfPlain)
      else .copyOfPlain
    ⟨true, some ocrOut, true, some ocrOut⟩

/-- Outcome summary of the OCR and compression steps of
VideoToSlidesConverter.process_video on a fresh run. -/
structure VTSResult where
  success : Bool
  ocrPathExists : Bool
  compressRan : Bool
  compressInputIsOcr : Bool
deriving DecidableEq

/-- Steps 5 and 6 of VideoToSlidesConverter.process_video
(video_to_slides_v1.py:1192-1213) on a fresh run (no resume state, no
pre-existing output files): OCR runs unless skipped and on failure the
converter logs a warning and continues — nothing is written to
ocr_pdf_path; compression then runs unless skipped on final_pdf, which
is ocr_pdf_path if it exists and the un-OCR'd pdf_path otherwise. -/
def vts_process_video_ocr_compress (skip_ocr ocr_ok skip_compress : Bool) :
    VTSResult :=
  let ocrExists := ¬ skip_ocr ∧ ocr_ok
  ⟨true, decide ocrExists, !skip_compress, decide ocrExists⟩

/-- C3: the claim that every PDF-producing pipeline copies the un-OCR'd
PDF to the OCR output path when OCR fails is false for
video_to_slides_v1.py: on a fresh run with OCR enabled and failing,
the run still succeeds and compression still runs, but the OCR output
path does not exist — compression reads the un-OCR'd pdf_path
directly, with no copy made. -/
theorem C3_vts_no_copy_counterexample :
    vts_process_video_ocr_compress false false false
      = ⟨true, false, true, false⟩ :=
  rfl

/-- C3 (amended): when the OCR step fails, both pipelines log and
continue and compression still runs on un-OCR'd content; in
papermark_download the un-OCR'd PDF is copied to the OCR output path
and compressed from there, while in video_to_slides no copy is made
and compression reads the un-OCR'd pdf_path directly. -/
theorem C3_ocr_failure_fallback_amended (multiLang ocrEng_ok : Bool) :
    (process_slides_to_pdf true false false ocrEng_ok
      = ⟨true, some .copyOfPlain, true, some .copyOfPlain⟩) ∧
    (multiLang = true → ocrEng_ok = false →
      process_slides_to_pdf true multiLang false ocrEng_ok
        = ⟨true, some .copyOfPlain, true, some .copyOfPlain⟩) ∧
    vts_process_video_ocr_compress false false false
      = ⟨true, false, true, false⟩ := by
  refine ⟨?_, ?_, rfl⟩
  · cases ocrEng_ok <;> rfl
  · intro hm he
    subst hm; subst he
    rfl

/-- Witness for C3 (amended): multi-language OCR requested, both OCR
attempts fail. -/
theorem C3_ocr_failure_fallback_amended_witness :
    (process_slides_to_pdf true false false false
      = ⟨true, some .copyOfPlain, true, some .copyOfPlain⟩) ∧
    (process_slides_to_pdf true true false false
      = ⟨true, some .copyOfPlain, true, some .copyOfPlain⟩) ∧
    vts_process_video_ocr_compress false false false
      = ⟨true, false, true, false⟩ := by
  have h := C3_ocr_failure_fallback_amended true false
  exact ⟨h.1, h.2.1 rfl rfl, h.2.2⟩

/-! ## fireflies_cli_v1.py : _atomic_write (C8)

The filesystem interaction is summarised by which step of the body
fails, if any.  The key point of the embedding is the except handler:
when the failure happens inside the `with os.fdopen(...)` block, the
context manager has already closed the descriptor but temp_fd has not
been reset to None (that happens only after the block), so the
handler's os.close(temp_fd) raises OSError on the closed descriptor;
that exception escapes _atomic_write before the unlink runs. -/

/-- Which step of _atomic_write fails: none; tempfile.mkstemp (no temp
file created); os.fdopen (descriptor open, temp file present); the
write/flush/fsync inside the with block (descriptor closed by the
context manager, temp file present); or the final Path.replace. -/
inductive AWFailPoint where
  | noFail
  | failMkstemp
  | failFdopen
  | failWrite
  | failRename
deriving DecidableEq

/-- How the call ends: the boolean it returns, or an OSError escaping
from the except handler itself. -/
inductive AWReturn where
  | retTrue
  | retFalse
  | raisedOSError
deriving DecidableEq

/-- Post-state of one _atomic_write call. -/
structure AWResult where
  ret : AWReturn
  target : Option String
  tempRemains : Bool
deriving DecidableEq

/-- _atomic_write (fireflies_cli_v1.py:168-198) over the prior target
content, the content to write and the failing step.  Success renames
the temp file over the target and returns True.  A mkstemp failure
leaves nothing to clean and returns False.  An fdopen failure is
caught, the still-open descriptor closed, the temp file unlinked, and
False returned.  A rename failure is caught with temp_fd already None,
the temp file unlinked, and False returned.  A failure inside the with
block is caught with temp_fd non-None but the descriptor already
closed by the context manager, so os.close raises OSError out of the
handler, skipping the unlink: the call raises, the temp file remains,
and the target is untouched. -/
def fireflies_atomic_write (target : Option String) (content : String)
    (fp : AWFailPoint) : AWResult :=
  match fp with
  | .noFail => ⟨.retTrue, some content, false⟩
  | .failMkstemp => ⟨.retFalse, target, false⟩
  | .failFdopen => ⟨.retFalse, target, false⟩
  | .failWrite => ⟨.raisedOSError, target, true⟩
  | .failRename => ⟨.retFalse, target, false⟩

/-- C8: the claim that _atomic_write always either returns True with
the new content in place or returns False with the target unchanged
and the temp file removed is false: when the write inside the with
block fails, the call raises OSError instead of returning False and
the temp file is left behind (the target is still unchanged). -/
theorem C8_atomic_write_counterexample :
    fireflies_atomic_write (some "old") "new" .failWrite
      = ⟨.raisedOSError, some "old", true⟩ ∧
    ¬ ((fireflies_atomic_write (some "old") "new" .failWrite).ret = .retTrue ∧
        (fireflies_atomic_write (some "old") "new" .failWrite).target = some "new") ∧
    ¬ ((fireflies_atomic_write (some "old") "new" .failWrite).ret = .retFalse ∧
        (fireflies_atomic_write (some "old") "new" .failWrite).tempRemains = false) := by
  refine ⟨rfl, ?_, ?_⟩
  · intro h
    cases h.1
  · intro h
    cases h.1

/-- C8 (amended): the target never holds a partial write — it is
either the old or exactly the new content; the call returns True
exactly on success, with the new content installed; every False return
leaves the target unchanged and the temp file removed; and the one
remaining path, a failure inside the write block, raises OSError with
the target unchanged but the temp file left on disk. -/
theorem C8_atomic_write_amended (target : Option String) (content : String) :
    (∀ fp, (fireflies_atomic_write target content fp).target = some content
        ∨ (fireflies_atomic_write target content fp).target = target) ∧
    (∀ fp, (fireflies_atomic_write target content fp).ret = .retTrue
        ↔ fp = .noFail) ∧
    (fireflies_atomic_write target content .noFail).target = some content ∧
    (∀ fp, (fireflies_atomic_write target content fp).ret = .retFalse →
      (fireflies_atomic_write target content fp).target = target ∧
      (fireflies_atomic_write target content fp).tempRemains = false) ∧
    fireflies_atomic_write target content .failWrite
      = ⟨.raisedOSError, target, true⟩ := by
  refine ⟨?_, ?_, rfl, ?_, rfl⟩
  · intro fp
    cases fp
    · exact Or.inl rfl
    · exact Or.inr rfl
    · exact Or.inr rfl
    · exact Or.inr rfl
    · exact Or.inr rfl
  · intro fp
    cases fp
    · exact ⟨fun _ => rfl, fun _ => rfl⟩
    · exact ⟨fun h => absurd h (by intro h0; cases h0), fun h => absurd h (by intro h0; cases h0)⟩
    · exact ⟨fun h => absurd h (by intro h0; cases h0), fun h => absurd h (by intro h0; cases h0)⟩
    · exact ⟨fun h => absurd h (by intro h0; cases h0), fun h => absurd h (by intro h0; cases h0)⟩
    · exact ⟨fun h => absurd h (by intro h0; cases h0), fun h => absurd h (by intro h0; cases h0)⟩
  · intro fp h
    cases fp
    · cases h
    · exact ⟨rfl, rfl⟩
    · exact ⟨rfl, rfl⟩
    · cases h
    · exact ⟨rfl, rfl⟩

/-- Witness for C8 (amended) at a concrete old content, new content
and a rename failure (plus the write-failure equation). -/
theorem C8_atomic_write_amended_witness :
    (fireflies_atomic_write (some "a") "b" AWFailPoint.failRename).ret
      = AWReturn.retFalse ∧
    (fireflies_atomic_write (some "a") "b" AWFailPoint.failRename).target
      = some "a" ∧
    (fireflies_atomic_write (some "a") "b" AWFailPoint.failRename).tempRemains
      = false ∧
    fireflies_atomic_write (some "a") "b" AWFailPoint.failWrite
      = ⟨.raisedOSError, some "a", true⟩ := by
  have h := C8_atomic_write_amended (some "a") "b"
  exact ⟨rfl, (h.2.2.2.1 AWFailPoint.failRename rfl).1,
    (h.2.2.2.1 AWFailPoint.failRename rfl).2, h.2.2.2.2⟩

/-! ## website_to_pdf.py : sanitize_filename (C10)

The function is modelled character-list to character-list, mirroring
each regex substitution of the source in order.  Python regexes over
str operate on code points, so characters are Lean Chars. -/

/-- The character class of the first substitution in sanitize_filename
(website_to_pdf.py:624): control characters 00-1f and 7f-9f. -/
def isCtrlChar (c : Char) : Bool :=
  c.toNat ≤ 0x1f || (0x7f ≤ c.toNat && c.toNat ≤ 0x9f)

/-- re.sub of two consecutive dots by the empty string
(website_to_pdf.py:627): non-overlapping matches removed left to
right. -/
def removeDotDot : List Char → List Char
  | [] => []
  | [c] => [c]
  | c :: d :: rest =>
      if c = '.' && d = '.' then removeDotDot rest
      else c :: removeDotDot (d :: rest)

/-- The slash class removed at website_to_pdf.py:628. -/
def isSlashChar (c : Char) : Bool := c = '/' || c = '\\'

/-- The dangerous-character class removed at website_to_pdf.py:638. -/
def isDangerousChar (c : Char) : Bool :=
  c = '<' || c = '>' || c = ':' || c = '"' || c = '/' || c = '\\'
    || c = '|' || c = '?' || c = '*'

/-- Python's whitespace class (regex backslash-s in unicode mode and
str.isspace/str.strip): ASCII whitespace, the 1c-1f separators, and
the Unicode space code points. -/
def pyIsSpace (c : Char) : Bool :=
  c.toNat = 0x20 || (0x9 ≤ c.toNat && c.toNat ≤ 0xd)
    || (0x1c ≤ c.toNat && c.toNat ≤ 0x1f)
    || c.toNat = 0x85 || c.toNat = 0xa0 || c.toNat = 0x1680
    || (0x2000 ≤ c.toNat && c.toNat ≤ 0x200a)
    || c.toNat = 0x2028 || c.toNat = 0x2029
    || c.toNat = 0x202f || c.toNat = 0x205f || c.toNat = 0x3000

/-- re.sub of maximal whitespace runs by a single space
(website_to_pdf.py:639). -/
def collapseWS : List Char → List Char
  | [] => []
  | c :: rest =>
      let t := collapseWS rest
      if pyIsSpace c then
        if t.head? = some ' ' then t else ' ' :: t
      else c :: t

/-- str.strip (website_to_pdf.py:640): remove leading and trailing
whitespace. -/
def pyStrip (l : List Char) : List Char :=
  ((l.dropWhile pyIsSpace).reverse.dropWhile pyIsSpace).reverse

/-- The Windows reserved device names of website_to_pdf.py:631-633. -/
def windowsReservedNames : List (List Char) :=
  List.map String.toList
    ["CON", "PRN", "AUX", "NUL", "COM1", "COM2", "COM3", "COM4",
     "COM5", "COM6", "COM7", "COM8", "COM9", "LPT1", "LPT2", "LPT3",
     "LPT4", "LPT5", "LPT6", "LPT7", "LPT8", "LPT9"]

/-- ASCII uppercasing as used by the title.upper() comparison against
the (all-ASCII) reserved names. -/
def asciiUpper (c : Char) : Char :=
  if 'a' ≤ c && c ≤ 'z' then Char.ofNat (c.toNat - 32) else c

/-- sanitize_filename steps 1-3 (website_to_pdf.py:623-628): remove
control characters, then dot-dot pairs, then slashes. -/
def sanitizeClean (title : List Char) : List Char :=
  (removeDotDot (title.filter (fun c => !isCtrlChar c))).filter
    (fun c => !isSlashChar c)

/-- sanitize_filename step 4 (website_to_pdf.py:630-635): prefix
reserved device names with file_. -/
def sanitizeReserved (l : List Char) : List Char :=
  if l.map asciiUpper ∈ windowsReservedNames
  then String.toList "file_" ++ l else l

/-- sanitize_filename steps 5-8 (website_to_pdf.py:637-643): remove
dangerous characters, collapse whitespace, strip, truncate to 100. -/
def sanitizeCore (title : List Char) : List Char :=
  (pyStrip (collapseWS
    ((sanitizeReserved (sanitizeClean title)).filter
      (fun c => !isDangerousChar c)))).take 100

/-- sanitize_filename step 9 (website_to_pdf.py:644-645): replace an
empty or all-whitespace result with untitled. -/
def sanitizeNonempty (l : List Char) : List Char :=
  if l.isEmpty then String.toList "untitled"
  else if l.all pyIsSpace then String.toList "untitled"
  else l

/-- sanitize_filename step 10 (website_to_pdf.py:647-649): prefix
file_ when the result starts with a dot or a dash. -/
def sanitizePrefixGuard (l : List Char) : List Char :=
  if l.head? = some '.' ∨ l.head? = some '-'
  then String.toList "file_" ++ l else l

/-- WebsiteToPDFConverter.sanitize_filename
(website_to_pdf.py:618-651) on a string input. -/
def sanitize_filename (title : List Char) : List Char :=
  sanitizePrefixGuard (sanitizeNonempty (sanitizeCore title))

/-- The dynamic type check at the top of sanitize_filename: a
non-string argument raises ValidationError. -/
inductive PyInput where
  | str (s : List Char)
  | notStr
deriving DecidableEq

/-- Result of calling sanitize_filename on an arbitrary Python value
(website_to_pdf.py:620-621): ValidationError for non-strings, the
sanitized name otherwise. -/
inductive SanitizeOutcome where
  | ok (r : List Char)
  | validationError
deriving DecidableEq

/-- sanitize_filename including its isinstance guard. -/
def sanitize_filename_checked : PyInput → SanitizeOutcome
  | .str s => .ok (sanitize_filename s)
  | .notStr => .validationError

section SanitizeLemmas

theorem mem_removeDotDot (l : List Char) : ∀ c ∈ removeDotDot l, c ∈ l := by
  induction l using removeDotDot.induct with
  | case1 => intro c hc; cases hc
  | case2 a => intro c hc; exact hc
  | case3 a b rest hab ih =>
    intro c hc
    rw [removeDotDot, if_pos hab] at hc
    exact List.mem_cons_of_mem a (List.mem_cons_of_mem b (ih c hc))
  | case4 a b rest hab ih =>
    intro c hc
    rw [removeDotDot, if_neg hab] at hc
    rcases List.mem_cons.mp hc with h | h
    · exact h ▸ List.mem_cons_self _ _
    · exact List.mem_cons_of_mem a (ih c h)

theorem mem_collapseWS (l : List Char) :
    ∀ c ∈ collapseWS l, c = ' ' ∨ c ∈ l := by
  induction l with
  | nil => intro c hc; cases hc
  | cons a rest ih =>
    intro c hc
    rw [collapseWS] at hc
    by_cases ha : pyIsSpace a = true
    · rw [if_pos ha] at hc
      by_cases hh : (collapseWS rest).head? = some ' '
      · rw [if_pos hh] at hc
        rcases ih c hc with h | h
        · exact Or.inl h
        · exact Or.inr (List.mem_cons_of_mem a h)
      · rw [if_neg hh] at hc
        rcases List.mem_cons.mp hc with h | h
        · exact Or.inl h
        · rcases ih c h with h0 | h0
          · exact Or.inl h0
          · exact Or.inr (List.mem_cons_of_mem a h0)
    · rw [if_neg ha] at hc
      rcases List.mem_cons.mp hc with h | h
      · exact Or.inr (h ▸ List.mem_cons_self _ _)
      · rcases ih c h with h0 | h0
        · exact Or.inl h0
        · exact Or.inr (List.mem_cons_of_mem a h0)

theorem mem_pyStrip (l : List Char) : ∀ c ∈ pyStrip l, c ∈ l := by
  intro c hc
  rw [pyStrip, List.mem_reverse] at hc
  have h1 := (@List.dropWhile_sublist Char
    ((l.dropWhile pyIsSpace).reverse) pyIsSpace).mem hc
  rw [List.mem_reverse] at h1
  exact (List.dropWhile_sublist pyIsSpace).mem h1

theorem slash_implies_dangerous (c : Char) :
    isSlashChar c = true → isDangerousChar c = true := by
  intro h
  rw [isSlashChar] at h
  rcases Bool.or_eq_true_iff.mp h with h0 | h0
  · rw [of_decide_eq_true h0]; decide
  · rw [of_decide_eq_true h0]; decide

theorem file_prefix_no_ctrl :
    ∀ c ∈ String.toList "file_", isCtrlChar c = false := by decide

theorem file_prefix_no_slash :
    ∀ c ∈ String.toList "file_", isSlashChar c = false := by decide

theorem untitled_no_ctrl :
    ∀ c ∈ String.toList "untitled", isCtrlChar c = false := by decide

theorem untitled_no_slash :
    ∀ c ∈ String.toList "untitled", isSlashChar c = false := by decide

theorem sanitizeCore_no_slash (title : List Char) :
    ∀ c ∈ sanitizeCore title, isSlashChar c = false := by
  intro c hc
  rw [sanitizeCore] at hc
  have h1 := (List.take_sublist 100 _).mem hc
  have h2 := mem_pyStrip _ c h1
  rcases mem_collapseWS _ c h2 with h | h
  · rw [h]; rfl
  · have h3 := (List.mem_filter.mp h).2
    cases hslash : isSlashChar c
    · rfl
    · rw [slash_implies_dangerous c hslash] at h3
      exact Bool.noConfusion h3

theorem sanitizeClean_no_ctrl (title : List Char) :
    ∀ d ∈ sanitizeClean title, isCtrlChar d = false := by
  intro d hd
  rw [sanitizeClean] at hd
  have hd1 := (List.mem_filter.mp hd).1
  have hd2 := mem_removeDotDot _ d hd1
  have hd3 := (List.mem_filter.mp hd2).2
  rwa [Bool.not_eq_true'] at hd3

theorem sanitizeCore_no_ctrl (title : List Char) :
    ∀ c ∈ sanitizeCore title, isCtrlChar c = false := by
  intro c hc
  rw [sanitizeCore] at hc
  have h1 := (List.take_sublist 100 _).mem hc
  have h2 := mem_pyStrip _ c h1
  rcases mem_collapseWS _ c h2 with h | h
  · rw [h]; rfl
  · have h3 := (List.mem_filter.mp h).1
    rw [sanitizeReserved] at h3
    by_cases hres : (sanitizeClean title).map asciiUpper ∈ windowsReservedNames
    · rw [if_pos hres] at h3
      rcases List.mem_append.mp h3 with h4 | h4
      · exact file_prefix_no_ctrl c h4
      · exact sanitizeClean_no_ctrl title c h4
    · rw [if_neg hres] at h3
      exact sanitizeClean_no_ctrl title c h3

theorem sanitizeNonempty_ne_nil (l : List Char) : sanitizeNonempty l ≠ [] := by
  rw [sanitizeNonempty]
  by_cases h1 : l.isEmpty = true
  · rw [if_pos h1]; decide
  · rw [if_neg h1]
    by_cases h2 : l.all pyIsSpace = true
    · rw [if_pos h2]; decide
    · rw [if_neg h2]
      intro he
      exact h1 (by rw [he]; rfl)

theorem sanitizeNonempty_length {l : List Char} (h : l.length ≤ 100) :
    (sanitizeNonempty l).length ≤ 100 := by
  rw [sanitizeNonempty]
  by_cases h1 : l.isEmpty = true
  · rw [if_pos h1]; decide
  · rw [if_neg h1]
    by_cases h2 : l.all pyIsSpace = true
    · rw [if_pos h2]; decide
    · rw [if_neg h2]; exact h

theorem sanitizeNonempty_mem {l : List Char} {c : Char}
    (h : c ∈ sanitizeNonempty l) :
    c ∈ String.toList "untitled" ∨ c ∈ l := by
  rw [sanitizeNonempty] at h
  by_cases h1 : l.isEmpty = true
  · rw [if_pos h1] at h; exact Or.inl h
  · rw [if_neg h1] at h
    by_cases h2 : l.all pyIsSpace = true
    · rw [if_pos h2] at h; exact Or.inl h
    · rw [if_neg h2] at h; exact Or.inr h

theorem sanitizePrefixGuard_ne_nil {l : List Char} (h : l ≠ []) :
    sanitizePrefixGuard l ≠ [] := by
  rw [sanitizePrefixGuard]
  by_cases hc : l.head? = some '.' ∨ l.head? = some '-'
  · rw [if_pos hc]; intro h0; cases h0
  · rw [if_neg hc]; exact h

theorem sanitizePrefixGuard_length (l : List Char) :
    (sanitizePrefixGuard l).length ≤ l.length + 5 := by
  rw [sanitizePrefixGuard]
  by_cases hc : l.head? = some '.' ∨ l.head? = some '-'
  · rw [if_pos hc, List.length_append]
    have h5 : (String.toList "file_").length = 5 := rfl
    omega
  · rw [if_neg hc]; omega

theorem sanitizePrefixGuard_mem {l : List Char} {c : Char}
    (h : c ∈ sanitizePrefixGuard l) :
    c ∈ String.toList "file_" ∨ c ∈ l := by
  rw [sanitizePrefixGuard] at h
  by_cases hc : l.head? = some '.' ∨ l.head? = some '-'
  · rw [if_pos hc] at h
    exact List.mem_append.mp h
  · rw [if_neg hc] at h; exact Or.inr h

theorem sanitizePrefixGuard_head (l : List Char) :
    (sanitizePrefixGuard l).head? ≠ some '.' ∧
    (sanitizePrefixGuard l).head? ≠ some '-' := by
  rw [sanitizePrefixGuard]
  by_cases hc : l.head? = some '.' ∨ l.head? = some '-'
  · rw [if_pos hc]
    constructor
    · intro h0
      rw [show (String.toList "file_" ++ l).head? = some 'f' from rfl] at h0
      cases h0
    · intro h0
      rw [show (String.toList "file_" ++ l).head? = some 'f' from rfl] at h0
      cases h0
  · rw [if_neg hc]
    push_neg at hc
    exact hc

end SanitizeLemmas

/-- C10: the claim that sanitize_filename output never contains a
dot-dot sequence is false: the dot-dot substitution runs before the
slash substitution, so slash removal can splice two lone dots into a
new dot-dot; on input "./." the function returns "file_..", which
contains "..". -/
theorem C10_sanitize_dotdot_counterexample :
    sanitize_filename (String.toList "./.") = String.toList "file_.." ∧
    List.IsInfix (String.toList "..") (sanitize_filename (String.toList "./.")) ∧
    sanitize_filename_checked (PyInput.str (String.toList "./."))
      = SanitizeOutcome.ok (String.toList "file_..") :=
  ⟨by decide, by decide, by decide⟩

/-- C10 (amended): for every string input, sanitize_filename returns a
non-empty string of at most 105 characters that contains no slash or
backslash and no control characters and does not start with a dot or a
dash; ValidationError is raised exactly for non-string inputs.  (The
no-dot-dot guarantee of the original claim does not hold.) -/
theorem C10_sanitize_filename_amended (title : List Char) :
    sanitize_filename title ≠ [] ∧
    (sanitize_filename title).length ≤ 105 ∧
    (∀ c ∈ sanitize_filename title, isSlashChar c = false) ∧
    (∀ c ∈ sanitize_filename title, isCtrlChar c = false) ∧
    (sanitize_filename title).head? ≠ some '.' ∧
    (sanitize_filename title).head? ≠ some '-' ∧
    sanitize_filename_checked (PyInput.str title)
      = SanitizeOutcome.ok (sanitize_filename title) ∧
    sanitize_filename_checked PyInput.notStr
      = SanitizeOutcome.validationError := by
  have hcore : (sanitizeCore title).length ≤ 100 := List.length_take_le _ _
  refine ⟨?_, ?_, ?_, ?_, ?_, ?_, rfl, rfl⟩
  · exact sanitizePrefixGuard_ne_nil (sanitizeNonempty_ne_nil _)
  · rw [sanitize_filename]
    have h1 := sanitizePrefixGuard_length (sanitizeNonempty (sanitizeCore title))
    have h2 := sanitizeNonempty_length hcore
    omega
  · intro c hc
    rcases sanitizePrefixGuard_mem hc with h | h
    · exact file_prefix_no_slash c h
    · rcases sanitizeNonempty_mem h with h0 | h0
      · exact untitled_no_slash c h0
      · exact sanitizeCore_no_slash title c h0
  · intro c hc
    rcases sanitizePrefixGuard_mem hc with h | h
    · exact file_prefix_no_ctrl c h
    · rcases sanitizeNonempty_mem h with h0 | h0
      · exact untitled_no_ctrl c h0
      · exact sanitizeCore_no_ctrl title c h0
  · exact (sanitizePrefixGuard_head _).1
  · exact (sanitizePrefixGuard_head _).2

/-- Witness for C10 (amended) on the input "a/b.txt", whose sanitized
form is "ab.txt". -/
theorem C10_sanitize_filename_amended_witness :
    sanitize_filename (String.toList "a/b.txt") ≠ [] ∧
    (sanitize_filename (String.toList "a/b.txt")).length ≤ 105 ∧
    isSlashChar 'a' = false ∧
    isCtrlChar 'a' = false ∧
    (sanitize_filename (String.toList "a/b.txt")).head? ≠ some '.' ∧
    (sanitize_filename (String.toList "a/b.txt")).head? ≠ some '-' ∧
    sanitize_filename_checked (PyInput.str (String.toList "a/b.txt"))
      = SanitizeOutcome.ok (sanitize_filename (String.toList "a/b.txt")) := by
  have h := C10_sanitize_filename_amended (String.toList "a/b.txt")
  exact ⟨h.1, h.2.1, h.2.2.1 'a' (by decide), h.2.2.2.1 'a' (by decide),
    h.2.2.2.2.1, h.2.2.2.2.2.1, h.2.2.2.2.2.2.1⟩

end Dotfiles
